import Mathlib

/-!
Verification of the noteful-server resource-update and validation subsystem.

The repository ships the FolderService data-access module
(src/folder/folder-service.js) and an endpoint test suite; the controller,
validator and sanitizer bodies are exercised by the tests but their files
are not in the corpus, so those components are modelled from the
specification (each such definition says so in its doc comment).
FolderService is embedded directly from its source.
-/

namespace Noteful

/-- Modelled from the spec: per-character escaping step of the Sanitizer
(spec section 4.1), whose implementation file is absent from the corpus.
It neutralizes the structural markup delimiters by encoding them as HTML
entities, leaving every other character byte-for-byte intact. -/
def escChar (c : Char) : List Char :=
  if c = '<' then "&lt;".data
  else if c = '>' then "&gt;".data
  else [c]

/-- Sanitizer on character lists: concatenation of per-character escapes. -/
def sanitizeL (l : List Char) : List Char :=
  l.flatMap escChar

/-- Modelled from the spec: the Sanitizer contract sanitize(text) -> text
(spec section 4.1), whose implementation file is absent from the corpus. -/
def sanitize (s : String) : String :=
  ⟨sanitizeL s.data⟩

/-- A character is a markup delimiter when it opens or closes a tag. -/
def isDelim (c : Char) : Bool :=
  c = '<' || c = '>'

/-- A string is markup-neutral when no character of it is a delimiter. -/
def noDelim (s : String) : Prop :=
  ∀ c ∈ s.data, isDelim c = false

instance (s : String) : Decidable (noDelim s) := by
  unfold noDelim; infer_instance

/-- A request payload: ordered key/value pairs of the JSON body. -/
abbrev Payload := List (String × String)

/-- Required set for article create, in canonical order (spec section 6). -/
def requiredFields : List String := ["title", "style", "content"]

/-- Updatable set for article partial update (spec sections 4.2 and 6). -/
def updatableFields : List String := ["title", "style", "content"]

/-- Modelled from the spec: validateCreate (spec section 4.2), whose
implementation file is absent from the corpus. Checks each required field
in order, reports the first missing one, and on success restricts the
payload to the known fields. -/
def validateCreate (p : Payload) : Except String Payload :=
  match requiredFields.find? (fun f => (p.lookup f).isNone) with
  | some f => Except.error f
  | none => Except.ok (p.filter (fun kv => requiredFields.contains kv.1))

/-- Modelled from the spec: validateUpdate (spec section 4.2), whose
implementation file is absent from the corpus. Keeps the intersection of
the payload with the updatable fields and fails when it is empty. -/
def validateUpdate (p : Payload) : Except Unit Payload :=
  if (p.filter (fun kv => updatableFields.contains kv.1)).isEmpty
  then Except.error ()
  else Except.ok (p.filter (fun kv => updatableFields.contains kv.1))

/-- An article resource as stored and returned by the articles family. -/
structure Article where
  id : Nat
  title : String
  style : String
  content : String
  date_published : Nat
deriving DecidableEq, Repr

/-- All text fields of an article are markup-neutral. -/
def cleanArticle (a : Article) : Prop :=
  noDelim a.title ∧ noDelim a.style ∧ noDelim a.content

instance (a : Article) : Decidable (cleanArticle a) := by
  unfold cleanArticle; infer_instance

/-- The ResourceStore state backing the articles family: the rows of the
table plus the next store-assigned id. -/
structure Store where
  records : List Article
  nextId : Nat
deriving DecidableEq, Repr

/-- An API outcome: a success with a status code and a body, or a failure
rendered as a status code and the single error.message string of the JSON
error object (spec section 7). -/
inductive Outcome (α : Type) where
  | success (status : Nat) (body : α)
  | failure (status : Nat) (message : String)
deriving DecidableEq, Repr

/-- The 404 message of the articles family. -/
def articleNotFoundMsg : String := "Article doesn\x27t exist"

/-- The 404 message of the notes family. -/
def noteNotFoundMsg : String := "Note doesn\x27t exist"

/-- The 400 message for a create payload missing a required field. -/
def missingFieldMsg (f : String) : String :=
  "Missing \x27" ++ f ++ "\x27 in request body"

/-- The 400 message for an update payload with no recognized field. -/
def noFieldsSuppliedMsg : String :=
  "Request body must contain either \x27title\x27, \x27style\x27 or \x27content\x27"

/-- Outgoing sanitization of a stored article on the read paths. -/
def serializeArticle (a : Article) : Article :=
  { a with
    title := sanitize a.title
    style := sanitize a.style
    content := sanitize a.content }

/-- Modelled from the spec: the List operation (spec section 4.3), whose
controller file is absent from the corpus. No validation; returns the
sequence with each text field sanitized. -/
def listArticlesApi (st : Store) : Outcome (List Article) :=
  Outcome.success 200 (st.records.map serializeArticle)

/-- Modelled from the spec: the Get-by-id operation (spec section 4.3),
whose controller file is absent from the corpus. 404 when the id is
absent, else the sanitized resource. -/
def getArticleApi (st : Store) (id : Nat) : Outcome Article :=
  match st.records.find? (fun a => a.id == id) with
  | none => Outcome.failure 404 articleNotFoundMsg
  | some a => Outcome.success 200 (serializeArticle a)

/-- Modelled from the spec: the Create operation (spec section 4.3), whose
controller file is absent from the corpus. Runs validateCreate, sanitizes
the writable fields, inserts with the store-assigned id and timestamp, and
answers 201 with the stored representation and the Location reference.
This helper builds the inserted record: the store assigns the id and the
timestamp, and every writable text field is sanitized. -/
def mkArticle (st : Store) (v : Payload) (now : Nat) : Article :=
  { id := st.nextId
    title := sanitize ((v.lookup "title").getD "")
    style := sanitize ((v.lookup "style").getD "")
    content := sanitize ((v.lookup "content").getD "")
    date_published := now }

/-- Modelled from the spec: the Create operation itself (spec section
4.3); validation, then insertion of the sanitized record, then the 201
response carrying the stored representation and the Location reference. -/
def createArticleApi (st : Store) (p : Payload) (now : Nat) :
    Outcome (Article × String) × Store :=
  match validateCreate p with
  | Except.error f => (Outcome.failure 400 (missingFieldMsg f), st)
  | Except.ok v =>
      (Outcome.success 201
        (mkArticle st v now, "/api/articles/" ++ toString st.nextId),
       { records := st.records ++ [mkArticle st v now], nextId := st.nextId + 1 })

/-- A supplied field overwrites (after sanitization); an omitted one keeps
its prior value. -/
def patchField (v : Option String) (old : String) : String :=
  match v with
  | some s => sanitize s
  | none => old

/-- Merge of a validated update payload into a stored article. -/
def applyPatch (a : Article) (v : Payload) : Article :=
  { a with
    title := patchField (v.lookup "title") a.title
    style := patchField (v.lookup "style") a.style
    content := patchField (v.lookup "content") a.content }

/-- Modelled from the spec: the Update operation (spec section 4.3), whose
controller file is absent from the corpus. Existence check first (404),
then validateUpdate (400), then sanitized merge and 204 with no body. -/
def updateArticleApi (st : Store) (id : Nat) (p : Payload) :
    Outcome Unit × Store :=
  match st.records.find? (fun a => a.id == id) with
  | none => (Outcome.failure 404 articleNotFoundMsg, st)
  | some _ =>
      match validateUpdate p with
      | Except.error _ => (Outcome.failure 400 noFieldsSuppliedMsg, st)
      | Except.ok v =>
          (Outcome.success 204 (),
           { st with
             records := st.records.map
               (fun r => if r.id == id then applyPatch r v else r) })

/-- Modelled from the spec: the Delete operation (spec section 4.3), whose
controller file is absent from the corpus. Existence check (404), else
remove the row and answer 204 with no body. -/
def deleteArticleApi (st : Store) (id : Nat) : Outcome Unit × Store :=
  match st.records.find? (fun a => a.id == id) with
  | none => (Outcome.failure 404 articleNotFoundMsg, st)
  | some _ =>
      (Outcome.success 204 (),
       { st with records := st.records.filter (fun a => a.id != id) })

/-- A note resource of the notes family (spec section 3). -/
structure Note where
  id : Nat
  title : String
  content : String
deriving DecidableEq, Repr

/-- Modelled from the spec: Get-by-id for the notes family, which mirrors
the articles family with the resource name substituted (spec section 6);
its controller file is absent from the corpus. -/
def getNoteApi (notes : List Note) (id : Nat) : Outcome Note :=
  match notes.find? (fun n => n.id == id) with
  | none => Outcome.failure 404 noteNotFoundMsg
  | some n =>
      Outcome.success 200
        { n with title := sanitize n.title, content := sanitize n.content }

/-- A row of a backing table, as FolderService sees it: an id column plus
the remaining columns as key/value pairs. -/
structure FolderRow where
  id : Nat
  fields : List (String × String)
deriving DecidableEq, Repr

/-- The relational database FolderService runs against: each table name
yields its rows. -/
abbrev Database := String → List FolderRow

namespace FolderService

/-- From src/folder/folder-service.js getAllFolders: select * from folders. -/
def getAllFolders (db : Database) : List FolderRow :=
  db "folders"

/-- From src/folder/folder-service.js insertFolder: insert into folders
returning *, then take rows[0]. -/
def insertFolder (db : Database) (newFolder : FolderRow) :
    FolderRow × Database :=
  (newFolder,
   fun t => if t = "folders" then db "folders" ++ [newFolder] else db t)

/-- From src/folder/folder-service.js getById: from folders select * where
id, first. -/
def getById (db : Database) (id : Nat) : Option FolderRow :=
  ((db "folders").filter (fun r => r.id == id)).head?

/-- From src/folder/folder-service.js deleteArticle: folders where id,
delete; resolves to the affected-row count. -/
def deleteArticle (db : Database) (id : Nat) : Nat × Database :=
  (((db "folders").filter (fun r => r.id == id)).length,
   fun t =>
     if t = "folders" then (db "folders").filter (fun r => r.id != id)
     else db t)

/-- Setting one column of a row: overwrite when present, add otherwise. -/
def setField (fields : List (String × String)) (kv : String × String) :
    List (String × String) :=
  if fields.any (fun f => f.1 == kv.1)
  then fields.map (fun f => if f.1 == kv.1 then (f.1, kv.2) else f)
  else fields ++ [kv]

/-- Applying an update object to a row, column by column. -/
def updateRow (r : FolderRow) (newFields : List (String × String)) :
    FolderRow :=
  { r with fields := newFields.foldl setField r.fields }

/-- From src/folder/folder-service.js updateArticle: folders where id,
update(newFolderFields); resolves to the affected-row count. -/
def updateArticle (db : Database) (id : Nat)
    (newFields : List (String × String)) : Nat × Database :=
  (((db "folders").filter (fun r => r.id == id)).length,
   fun t =>
     if t = "folders" then
       (db "folders").map (fun r => if r.id == id then updateRow r newFields else r)
     else db t)

end FolderService

/-- Fixture: a stored article, mirroring the endpoint test fixtures. -/
def sampleArticle : Article :=
  { id := 2
    title := "First test post!"
    style := "How-to"
    content := "Lorem ipsum dolor sit amet"
    date_published := 7 }

/-- Fixture: a store holding the sample article. -/
def sampleStore : Store := { records := [sampleArticle], nextId := 3 }

/-- Fixture: the malicious title of the XSS endpoint tests. -/
def maliciousTitle : String :=
  "Naughty naughty very naughty <script>alert(\"xss\");</script>"

/-- Fixture: the neutralized form of the malicious title. -/
def neutralizedTitle : String :=
  "Naughty naughty very naughty &lt;script&gt;alert(\"xss\");&lt;/script&gt;"

/-- Fixture: a create payload carrying the malicious title. -/
def maliciousPayload : Payload :=
  [("title", maliciousTitle), ("style", "How-to"), ("content", "clean body")]

/-- Fixture: a complete, markup-free create payload. -/
def validPayload : Payload :=
  [("title", "Test new article"), ("style", "Listicle"),
   ("content", "Test new article content...")]

/-- Fixture: a database with one folders row and an empty users table. -/
def sampleDb : Database :=
  fun t => if t = "folders" then [{ id := 1, fields := [("name", "Important")] }] else []

/-- Fixture: the sample folders row. -/
def sampleFolder : FolderRow := { id := 1, fields := [("name", "Important")] }

/-- Fixture: the sample article after updating only its title. -/
def updatedSample : Article :=
  { sampleArticle with title := "updated article title" }

/-- Fixture: the article stored for the valid create payload at time 0. -/
def createdSample : Article :=
  { id := 1
    title := "Test new article"
    style := "Listicle"
    content := "Test new article content..."
    date_published := 0 }

/-- Fixture: the stored form of the malicious create payload at time 0. -/
def maliciousStored : Article :=
  { id := 1
    title := neutralizedTitle
    style := "How-to"
    content := "clean body"
    date_published := 0 }

end Noteful

namespace Noteful

theorem escChar_no_delim (c : Char) : ∀ d ∈ escChar c, isDelim d = false := by
  intro d hd
  unfold escChar at hd
  by_cases h1 : c = '<'
  · simp [h1] at hd
    rcases hd with h | h | h | h <;> simp [h, isDelim]
  · by_cases h2 : c = '>'
    · simp [h1, h2] at hd
      rcases hd with h | h | h | h <;> simp [h, isDelim]
    · simp [h1, h2] at hd
      subst hd
      unfold isDelim
      simp [h1, h2]

theorem sanitizeL_no_delim (l : List Char) : ∀ d ∈ sanitizeL l, isDelim d = false := by
  intro d hd
  unfold sanitizeL at hd
  rcases List.mem_flatMap.mp hd with ⟨c, _, hdc⟩
  exact escChar_no_delim c d hdc

theorem escChar_of_no_delim (c : Char) (h : isDelim c = false) : escChar c = [c] := by
  unfold isDelim at h
  simp only [Bool.or_eq_false_iff, decide_eq_false_iff_not] at h
  unfold escChar
  simp [h.1, h.2]

theorem sanitizeL_of_no_delim (l : List Char) (h : ∀ d ∈ l, isDelim d = false) :
    sanitizeL l = l := by
  induction l with
  | nil => rfl
  | cons c tl ih =>
      have hc : isDelim c = false := h c (List.mem_cons_self c tl)
      have htl : ∀ d ∈ tl, isDelim d = false := fun d hd => h d (List.mem_cons_of_mem c hd)
      unfold sanitizeL
      simp only [List.flatMap_cons]
      rw [escChar_of_no_delim c hc]
      unfold sanitizeL at ih
      rw [ih htl]
      rfl

theorem sanitizeL_idem (l : List Char) : sanitizeL (sanitizeL l) = sanitizeL l :=
  sanitizeL_of_no_delim _ (sanitizeL_no_delim l)

theorem sanitize_no_delim (s : String) : noDelim (sanitize s) := by
  intro c hc
  exact sanitizeL_no_delim s.data c hc

theorem sanitize_idem (s : String) : sanitize (sanitize s) = sanitize s := by
  unfold sanitize
  simp [sanitizeL_idem]

theorem sanitize_of_no_delim (s : String) (h : noDelim s) : sanitize s = s := by
  unfold sanitize
  rw [sanitizeL_of_no_delim s.data h]

end Noteful

/-- C2: the sanitizer is idempotent — sanitize (sanitize x) = sanitize x —
and its output never contains an unescaped markup delimiter, for every
input string. -/
theorem C2_sanitize_idempotent_and_neutral (x : String) :
    Noteful.sanitize (Noteful.sanitize x) = Noteful.sanitize x ∧
    Noteful.noDelim (Noteful.sanitize x) :=
  ⟨Noteful.sanitize_idem x, Noteful.sanitize_no_delim x⟩

namespace Noteful

theorem lookup_filter_key (p : Payload) (pred : String → Bool) (f : String)
    (hf : pred f = true) :
    (p.filter (fun kv => pred kv.1)).lookup f = p.lookup f := by
  induction p with
  | nil => rfl
  | cons kv tl ih =>
      obtain ⟨k, v⟩ := kv
      by_cases hp : pred k = true
      · rw [List.filter_cons_of_pos (by simpa using hp), List.lookup_cons, List.lookup_cons]
        cases hk : (f == k) <;> simp [ih]
      · have hk : (f == k) = false := by
          rcases Bool.eq_false_or_eq_true (f == k) with h | h
          · exfalso
            apply hp
            have hfk : f = k := beq_iff_eq.mp h
            rw [← hfk]
            exact hf
          · exact h
        rw [List.filter_cons_of_neg (by simpa using hp), List.lookup_cons]
        simp only [hk]
        exact ih

theorem find?_id_none (l : List Article) (id : Nat) (h : ∀ r ∈ l, r.id ≠ id) :
    l.find? (fun a => a.id == id) = none := by
  rw [List.find?_eq_none]
  intro x hx
  simpa using h x hx

end Noteful

open Noteful in
/-- C3: a create payload missing at least one of the required fields title,
style, content fails with status 400 and the message naming exactly the
first missing field in canonical order, and the store is left untouched. -/
theorem C3_create_missing_required_field (st : Store) (p : Payload) (now : Nat)
    (f : String)
    (h : requiredFields.find? (fun g => (p.lookup g).isNone) = some f) :
    createArticleApi st p now =
      (Outcome.failure 400 ("Missing \x27" ++ f ++ "\x27 in request body"), st) := by
  unfold createArticleApi validateCreate
  rw [h]
  rfl

open Noteful in
/-- C3 witness: a payload with style and content but no title is refused
with the message naming title, and the store is unchanged. -/
theorem C3_witness :
    createArticleApi { records := [], nextId := 1 }
        [("style", "Listicle"), ("content", "c")] 5 =
      (Outcome.failure 400 ("Missing \x27title\x27 in request body"),
       { records := [], nextId := 1 }) :=
  C3_create_missing_required_field _ _ 5 "title" (by decide)

open Noteful in
/-- C5: on update the existence check runs before body validation: for an
id absent from the store the operation answers 404 for every request body,
including one with zero recognized fields. -/
theorem C5_update_existence_before_validation (st : Store) (id : Nat)
    (p : Payload)
    (h : ∀ r ∈ st.records, r.id ≠ id) :
    updateArticleApi st id p =
      (Outcome.failure 404 "Article doesn\x27t exist", st) := by
  unfold updateArticleApi
  rw [find?_id_none st.records id h]
  rfl

open Noteful in
/-- C5 witness: a PATCH of id 123456 on an empty store with a body holding
only an unrecognized field answers 404, not the 400 validation error. -/
theorem C5_witness :
    updateArticleApi { records := [], nextId := 1 } 123456
        [("irrelevantField", "foo")] =
      (Outcome.failure 404 "Article doesn\x27t exist",
       { records := [], nextId := 1 }) :=
  C5_update_existence_before_validation _ 123456 _ (by decide)

open Noteful in
/-- C6: for an id not present in the store, get-by-id, update and delete
each fail with 404 and the exact message of their resource family, and the
store contents are unchanged. -/
theorem C6_absent_id_yields_404 (st : Store) (id : Nat) (p : Payload)
    (notes : List Note) (nid : Nat)
    (habs : ∀ r ∈ st.records, r.id ≠ id)
    (hnabs : ∀ n ∈ notes, n.id ≠ nid) :
    getArticleApi st id = Outcome.failure 404 "Article doesn\x27t exist" ∧
    updateArticleApi st id p =
      (Outcome.failure 404 "Article doesn\x27t exist", st) ∧
    deleteArticleApi st id =
      (Outcome.failure 404 "Article doesn\x27t exist", st) ∧
    getNoteApi notes nid = Outcome.failure 404 "Note doesn\x27t exist" := by
  refine ⟨?_, ?_, ?_, ?_⟩
  · unfold getArticleApi
    rw [find?_id_none st.records id habs]
    rfl
  · unfold updateArticleApi
    rw [find?_id_none st.records id habs]
    rfl
  · unfold deleteArticleApi
    rw [find?_id_none st.records id habs]
    rfl
  · unfold getNoteApi
    rw [List.find?_eq_none.mpr (fun n hn => by simpa using hnabs n hn)]
    rfl

open Noteful in
/-- C6 witness: id 123456 is absent from the sample store and from an empty
note table; all three article operations and the note read answer 404 with
the exact message, leaving the store as it was. -/
theorem C6_witness :
    getArticleApi sampleStore 123456 =
      Outcome.failure 404 "Article doesn\x27t exist" ∧
    updateArticleApi sampleStore 123456 [("title", "x")] =
      (Outcome.failure 404 "Article doesn\x27t exist", sampleStore) ∧
    deleteArticleApi sampleStore 123456 =
      (Outcome.failure 404 "Article doesn\x27t exist", sampleStore) ∧
    getNoteApi [] 123456 = Outcome.failure 404 "Note doesn\x27t exist" :=
  C6_absent_id_yields_404 sampleStore 123456 [("title", "x")] [] 123456
    (by decide) (by decide)

namespace Noteful

theorem validateUpdate_err (p : Payload)
    (h : ∀ kv ∈ p, updatableFields.contains kv.1 = false) :
    validateUpdate p = Except.error () := by
  unfold validateUpdate
  have hempty : p.filter (fun kv => updatableFields.contains kv.1) = [] := by
    rw [List.filter_eq_nil_iff]
    intro kv hkv
    simpa using h kv hkv
  rw [hempty]
  rfl

theorem validateUpdate_ok (p : Payload)
    (h : ∃ kv ∈ p, updatableFields.contains kv.1 = true) :
    validateUpdate p =
      Except.ok (p.filter (fun kv => updatableFields.contains kv.1)) := by
  unfold validateUpdate
  obtain ⟨kv, hmem, htrue⟩ := h
  have hfalse : (p.filter (fun kv => updatableFields.contains kv.1)).isEmpty = false := by
    cases hb : (p.filter (fun kv => updatableFields.contains kv.1)).isEmpty
    · rfl
    · exfalso
      have hnil := List.isEmpty_iff.mp hb
      exact (List.filter_eq_nil_iff.mp hnil kv hmem) htrue
  rw [hfalse]
  rfl

end Noteful

open Noteful in
/-- C4: an update payload whose keys have empty intersection with the
updatable set (including one holding only unrecognized keys) is refused
with 400 and the exact enumerating message while the store is untouched;
a payload supplying at least one updatable field passes validation and
keeps exactly the intersecting key/value pairs. -/
theorem C4_update_validation_intersection (st : Store) (id : Nat)
    (p : Payload) (a : Article)
    (hfind : st.records.find? (fun r => r.id == id) = some a) :
    ((∀ kv ∈ p, updatableFields.contains kv.1 = false) →
      updateArticleApi st id p =
        (Outcome.failure 400
          "Request body must contain either \x27title\x27, \x27style\x27 or \x27content\x27",
         st)) ∧
    ((∃ kv ∈ p, updatableFields.contains kv.1 = true) →
      validateUpdate p =
        Except.ok (p.filter (fun kv => updatableFields.contains kv.1))) := by
  constructor
  · intro hnone
    unfold updateArticleApi
    rw [hfind, validateUpdate_err p hnone]
    rfl
  · exact validateUpdate_ok p

open Noteful in
/-- C4 witness: on the sample store, a body holding only an unrecognized
field is refused with 400 and the exact message, and a body mixing a title
with an unknown key passes validation keeping only the title pair. -/
theorem C4_witness :
    updateArticleApi sampleStore 2 [("irrelevantField", "foo")] =
      (Outcome.failure 400
        "Request body must contain either \x27title\x27, \x27style\x27 or \x27content\x27",
       sampleStore) ∧
    validateUpdate [("title", "t"), ("junk", "j")] =
      Except.ok [("title", "t")] :=
  ⟨(C4_update_validation_intersection sampleStore 2 [("irrelevantField", "foo")]
      sampleArticle (by decide)).1 (by decide),
   (C4_update_validation_intersection sampleStore 2 [("title", "t"), ("junk", "j")]
      sampleArticle (by decide)).2 ⟨("title", "t"), by decide, by decide⟩⟩

namespace Noteful

theorem find?_map_patch (l : List Article) (id : Nat) (g : Article → Article)
    (hg : ∀ r, (g r).id = r.id) (a : Article)
    (h : l.find? (fun r => r.id == id) = some a) :
    (l.map (fun r => if r.id == id then g r else r)).find?
      (fun r => r.id == id) = some (g a) := by
  induction l with
  | nil => simp at h
  | cons hd tl ih =>
      by_cases hid : hd.id = id
      · have hbeq : (hd.id == id) = true := beq_iff_eq.mpr hid
        rw [List.find?_cons_of_pos tl hbeq] at h
        have hda : hd = a := by simpa using h
        have hgid : ((g hd).id == id) = true := by
          rw [hg hd]
          exact hbeq
        simp only [List.map_cons, hbeq, if_true]
        simp only [List.find?_cons, hgid]
        rw [hda]
      · have hbeq : (hd.id == id) = false := by
          cases hb : (hd.id == id)
          · rfl
          · exact absurd (beq_iff_eq.mp hb) hid
        rw [List.find?_cons_of_neg tl (by simp [hbeq])] at h
        simp only [List.map_cons, hbeq, if_false]
        rw [List.find?_cons_of_neg _ (by simp [hbeq])]
        exact ih h

end Noteful

open Noteful in
/-- C7: partial update has merge semantics: on an existing article, a
payload supplying a subset of the updatable fields yields 204 and the
stored record keeps its id and date_published, holds the (sanitized) new
value of each supplied field, retains the prior value of every omitted
field, and unrecognized payload keys leave no trace in the record. -/
theorem C7_update_merge_semantics (st : Store) (a : Article) (p : Payload)
    (rq : Outcome Unit) (stOut : Store) (r' : Article)
    (hfind : st.records.find? (fun r => r.id == a.id) = some a)
    (hsupp : ∃ kv ∈ p, updatableFields.contains kv.1 = true)
    (hrun : updateArticleApi st a.id p = (rq, stOut))
    (hfound : stOut.records.find? (fun r => r.id == a.id) = some r') :
    rq = Outcome.success 204 () ∧
    r'.id = a.id ∧
    r'.date_published = a.date_published ∧
    r'.title = (match p.lookup "title" with
                | some v => sanitize v
                | none => a.title) ∧
    r'.style = (match p.lookup "style" with
                | some v => sanitize v
                | none => a.style) ∧
    r'.content = (match p.lookup "content" with
                  | some v => sanitize v
                  | none => a.content) := by
  unfold updateArticleApi at hrun
  rw [hfind, validateUpdate_ok p hsupp] at hrun
  have hrq : rq = Outcome.success 204 () := (congrArg Prod.fst hrun).symm
  have hst : stOut =
      { st with
        records := st.records.map
          (fun r => if r.id == a.id then
            applyPatch r (p.filter (fun kv => updatableFields.contains kv.1))
          else r) } := (congrArg Prod.snd hrun).symm
  rw [hst] at hfound
  have hfound2 : (st.records.map
      (fun r => if r.id == a.id then
        applyPatch r (p.filter (fun kv => updatableFields.contains kv.1))
      else r)).find? (fun r => r.id == a.id) = some r' := hfound
  have hmapped := find?_map_patch st.records a.id
    (fun r => applyPatch r (p.filter (fun kv => updatableFields.contains kv.1)))
    (fun r => rfl) a hfind
  rw [hmapped] at hfound2
  have hr : r' = applyPatch a (p.filter (fun kv => updatableFields.contains kv.1)) := by
    simpa using hfound2.symm
  subst hr
  refine ⟨hrq, rfl, rfl, ?_, ?_, ?_⟩
  · show patchField ((p.filter (fun kv => updatableFields.contains kv.1)).lookup "title") a.title = _
    rw [lookup_filter_key p _ "title" (by decide)]
    cases p.lookup "title" <;> rfl
  · show patchField ((p.filter (fun kv => updatableFields.contains kv.1)).lookup "style") a.style = _
    rw [lookup_filter_key p _ "style" (by decide)]
    cases p.lookup "style" <;> rfl
  · show patchField ((p.filter (fun kv => updatableFields.contains kv.1)).lookup "content") a.content = _
    rw [lookup_filter_key p _ "content" (by decide)]
    cases p.lookup "content" <;> rfl

open Noteful in
/-- C7 witness: updating only the title of the sample article (with an
unrecognized extra key in the body) answers 204, and the stored record has
the new title while style, content, id and date_published are unchanged. -/
theorem C7_witness :
    updatedSample.id = sampleArticle.id ∧
    updatedSample.date_published = sampleArticle.date_published ∧
    updatedSample.title = "updated article title" ∧
    updatedSample.style = sampleArticle.style ∧
    updatedSample.content = sampleArticle.content ∧
    Outcome.success 204 () = (Outcome.success 204 () : Outcome Unit) :=
  have h := C7_update_merge_semantics sampleStore sampleArticle
    [("title", "updated article title"), ("fieldToIgnore", "nope")]
    (Outcome.success 204 ()) { records := [updatedSample], nextId := 3 }
    updatedSample (by decide)
    ⟨("title", "updated article title"), by decide, by decide⟩
    (by decide) (by decide)
  ⟨h.2.1, h.2.2.1, h.2.2.2.1, h.2.2.2.2.1, h.2.2.2.2.2, rfl⟩

namespace Noteful

theorem clean_serialize (a : Article) : cleanArticle (serializeArticle a) :=
  ⟨sanitize_no_delim _, sanitize_no_delim _, sanitize_no_delim _⟩

theorem clean_mkArticle (st : Store) (v : Payload) (now : Nat) :
    cleanArticle (mkArticle st v now) :=
  ⟨sanitize_no_delim _, sanitize_no_delim _, sanitize_no_delim _⟩

theorem serialize_mkArticle (st : Store) (v : Payload) (now : Nat) :
    serializeArticle (mkArticle st v now) = mkArticle st v now := by
  unfold serializeArticle mkArticle
  simp [sanitize_idem]

theorem get_success_clean (st : Store) (id : Nat) (x : Article)
    (h : getArticleApi st id = Outcome.success 200 x) : cleanArticle x := by
  unfold getArticleApi at h
  cases hf : st.records.find? (fun a => a.id == id) with
  | none =>
      rw [hf] at h
      exact absurd h (by simp)
  | some a =>
      rw [hf] at h
      have hx : serializeArticle a = x := by simpa using h
      rw [← hx]
      exact clean_serialize a

end Noteful

open Noteful in
/-- C8: round-trip: a successful create answers 201 with the
store-assigned id and timestamp and the Location reference built from the
assigned id, and an immediate get by that id returns a representation
equal to the created one, identity and timestamp fields included. -/
theorem C8_create_roundtrip (st : Store) (p : Payload) (now : Nat)
    (a : Article) (loc : String) (st' : Store)
    (hwf : ∀ r ∈ st.records, r.id < st.nextId)
    (hrun : createArticleApi st p now = (Outcome.success 201 (a, loc), st')) :
    loc = "/api/articles/" ++ toString a.id ∧
    a.id = st.nextId ∧
    a.date_published = now ∧
    st'.records = st.records ++ [a] ∧
    getArticleApi st' a.id = Outcome.success 200 a := by
  cases hv : validateCreate p with
  | error f =>
      unfold createArticleApi at hrun
      rw [hv, Prod.mk.injEq] at hrun
      exact absurd hrun.1 (by simp)
  | ok v =>
      unfold createArticleApi at hrun
      rw [hv, Prod.mk.injEq] at hrun
      obtain ⟨h1, h2⟩ := hrun
      rw [Outcome.success.injEq] at h1
      obtain ⟨-, h1⟩ := h1
      rw [Prod.mk.injEq] at h1
      obtain ⟨ha, hloc⟩ := h1
      subst ha
      subst hloc
      subst h2
      refine ⟨rfl, rfl, rfl, rfl, ?_⟩
      have hnone : st.records.find?
          (fun r => r.id == (mkArticle st v now).id) = none :=
        find?_id_none _ _ (fun r hr => Nat.ne_of_lt (hwf r hr))
      have hfind : (st.records ++ [mkArticle st v now]).find?
          (fun r => r.id == (mkArticle st v now).id) =
          some (mkArticle st v now) := by
        rw [List.find?_append, hnone]
        simp
      show (match (st.records ++ [mkArticle st v now]).find?
          (fun r => r.id == (mkArticle st v now).id) with
        | none => Outcome.failure 404 articleNotFoundMsg
        | some x => Outcome.success 200 (serializeArticle x)) =
        Outcome.success 200 (mkArticle st v now)
      rw [hfind]
      simp [serialize_mkArticle]

open Noteful in
/-- C8 witness: creating the valid test payload on an empty store answers
201 with id 1, timestamp 0 and Location /api/articles/1, and an immediate
get of id 1 returns the identical representation. -/
theorem C8_witness :
    ("/api/articles/1" : String) = "/api/articles/" ++ toString createdSample.id ∧
    createdSample.id = 1 ∧
    createdSample.date_published = 0 ∧
    ({ records := [createdSample], nextId := 2 } : Store).records =
      [] ++ [createdSample] ∧
    getArticleApi { records := [createdSample], nextId := 2 } createdSample.id =
      Outcome.success 200 createdSample :=
  C8_create_roundtrip { records := [], nextId := 1 } validPayload 0
    createdSample "/api/articles/1" { records := [createdSample], nextId := 2 }
    (by decide) (by decide)

open Noteful in
/-- C1: every article returned by list, get-by-id or create (and by a get
after a create) has all its text fields markup-neutral, and a
markup-neutral title can never contain the raw script tag. -/
theorem C1_returned_text_neutralized (st : Store) (id : Nat) (p : Payload)
    (now : Nat) :
    (∀ out, listArticlesApi st = Outcome.success 200 out →
      ∀ x ∈ out, cleanArticle x) ∧
    (∀ x, getArticleApi st id = Outcome.success 200 x → cleanArticle x) ∧
    (∀ x loc st2, createArticleApi st p now =
        (Outcome.success 201 (x, loc), st2) →
      cleanArticle x ∧
      ∀ y, getArticleApi st2 x.id = Outcome.success 200 y → cleanArticle y) ∧
    (∀ x, cleanArticle x → ¬ ("<script>".data <:+: x.title.data)) := by
  refine ⟨?_, ?_, ?_, ?_⟩
  · intro out hout x hx
    have hlist : st.records.map serializeArticle = out := by
      simpa [listArticlesApi] using hout
    rw [← hlist] at hx
    rcases List.mem_map.mp hx with ⟨r, _, hr⟩
    rw [← hr]
    exact clean_serialize r
  · intro x hx
    exact get_success_clean st id x hx
  · intro x loc st2 h
    cases hv : validateCreate p with
    | error f =>
        unfold createArticleApi at h
        rw [hv, Prod.mk.injEq] at h
        exact absurd h.1 (by simp)
    | ok v =>
        unfold createArticleApi at h
        rw [hv, Prod.mk.injEq] at h
        have hx : mkArticle st v now = x := by
          have h1 := h.1
          rw [Outcome.success.injEq, Prod.mk.injEq] at h1
          exact h1.2.1
        constructor
        · rw [← hx]
          exact clean_mkArticle st v now
        · intro y hy
          exact get_success_clean st2 x.id y hy
  · intro x hx hinf
    have hmem : '<' ∈ x.title.data := hinf.subset (by decide)
    exact absurd (hx.1 '<' hmem) (by decide)

set_option maxRecDepth 8192 in
open Noteful in
/-- C1 witness: creating the malicious payload stores and returns the
neutralized title, every text field of the response is markup-neutral, and
the raw script tag does not occur in the returned title. -/
theorem C1_witness :
    cleanArticle maliciousStored ∧
    maliciousStored.title = neutralizedTitle ∧
    ¬ ("<script>".data <:+: maliciousStored.title.data) :=
  have hc := (C1_returned_text_neutralized { records := [], nextId := 1 } 0
      maliciousPayload 0).2.2.1 maliciousStored "/api/articles/1"
      { records := [maliciousStored], nextId := 2 } (by decide)
  ⟨hc.1,
   rfl,
   (C1_returned_text_neutralized { records := [], nextId := 1 } 0
      maliciousPayload 0).2.2.2 maliciousStored hc.1⟩

namespace Noteful

theorem filter_head_unique (l : List FolderRow) (id : Nat) (r : FolderRow)
    (hr : r ∈ l) (hid : r.id = id)
    (huniq : ∀ x ∈ l, x.id = id → x = r) :
    (l.filter (fun x => x.id == id)).head? = some r := by
  induction l with
  | nil => cases hr
  | cons hd tl ih =>
      by_cases hhd : hd.id = id
      · have hhdr : hd = r := huniq hd (List.mem_cons_self hd tl) hhd
        rw [List.filter_cons_of_pos (by simpa using hhd)]
        simp [hhdr]
      · rw [List.filter_cons_of_neg (by simpa using hhd)]
        have hrtl : r ∈ tl := by
          rcases List.mem_cons.mp hr with h | h
          · exfalso
            apply hhd
            rw [h] at hid
            exact hid
          · exact h
        exact ih hrtl (fun x hx hxid => huniq x (List.mem_cons_of_mem hd hx) hxid)

theorem length_filter_split (l : List FolderRow) (p : FolderRow → Bool) :
    (l.filter p).length + (l.filter (fun x => !(p x))).length = l.length := by
  induction l with
  | nil => rfl
  | cons hd tl ih =>
      cases hp : p hd
      · rw [List.filter_cons_of_neg (by simp [hp]),
            List.filter_cons_of_pos (by simp [hp])]
        simp only [List.length_cons]
        omega
      · rw [List.filter_cons_of_pos hp,
            List.filter_cons_of_neg (by simp [hp])]
        simp only [List.length_cons]
        omega

end Noteful

open Noteful in
/-- C9: FolderService.getById signals absence as an empty result rather
than an error: an id matching no folders row resolves to none, and an id
whose unique matching row is r resolves to exactly some r. -/
theorem C9_folder_getById (db : Database) (id : Nat) (r : FolderRow) :
    ((∀ row ∈ db "folders", row.id ≠ id) →
      FolderService.getById db id = none) ∧
    ((r ∈ db "folders" ∧ r.id = id ∧
        ∀ x ∈ db "folders", x.id = id → x = r) →
      FolderService.getById db id = some r) := by
  constructor
  · intro h
    unfold FolderService.getById
    rw [List.filter_eq_nil_iff.mpr (fun x hx => by simpa using h x hx)]
    rfl
  · rintro ⟨hr, hid, huniq⟩
    unfold FolderService.getById
    exact filter_head_unique (db "folders") id r hr hid huniq

open Noteful in
/-- C9 witness: on the sample database, id 123456 resolves to none and
id 1 resolves to exactly the sample folders row. -/
theorem C9_witness :
    FolderService.getById sampleDb 123456 = none ∧
    FolderService.getById sampleDb 1 = some sampleFolder :=
  ⟨(C9_folder_getById sampleDb 123456 sampleFolder).1 (by decide),
   (C9_folder_getById sampleDb 1 sampleFolder).2
     ⟨by decide, by decide, by decide⟩⟩

open Noteful in
/-- C10: every FolderService operation reads or writes only the folders
table — deleteArticle and updateArticle mutate folders rows despite their
names — and the two mutators resolve to the affected-row count, which is 0
when the id is absent; for delete that count plus the remaining rows
accounts for the whole table. -/
theorem C10_folder_service_touches_only_folders (db db2 : Database)
    (id : Nat) (nf : List (String × String)) (f : FolderRow) (t : String)
    (ht : t ≠ "folders")
    (hagree : db "folders" = db2 "folders") :
    (FolderService.deleteArticle db id).2 t = db t ∧
    (FolderService.updateArticle db id nf).2 t = db t ∧
    (FolderService.insertFolder db f).2 t = db t ∧
    FolderService.getAllFolders db = FolderService.getAllFolders db2 ∧
    FolderService.getById db id = FolderService.getById db2 id ∧
    (FolderService.deleteArticle db id).1 =
      ((db "folders").filter (fun r => r.id == id)).length ∧
    (FolderService.updateArticle db id nf).1 =
      ((db "folders").filter (fun r => r.id == id)).length ∧
    (FolderService.deleteArticle db id).1 +
      ((FolderService.deleteArticle db id).2 "folders").length =
      (db "folders").length ∧
    ((∀ row ∈ db "folders", row.id ≠ id) →
      (FolderService.deleteArticle db id).1 = 0 ∧
      (FolderService.updateArticle db id nf).1 = 0) := by
  refine ⟨?_, ?_, ?_, ?_, ?_, rfl, rfl, ?_, ?_⟩
  · simp [FolderService.deleteArticle, ht]
  · simp [FolderService.updateArticle, ht]
  · simp [FolderService.insertFolder, ht]
  · unfold FolderService.getAllFolders
    rw [hagree]
  · unfold FolderService.getById
    rw [hagree]
  · show ((db "folders").filter (fun r => r.id == id)).length +
      ((db "folders").filter (fun r => r.id != id)).length =
      (db "folders").length
    exact length_filter_split (db "folders") (fun r => r.id == id)
  · intro habs
    have hnil : (db "folders").filter (fun r => r.id == id) = [] :=
      List.filter_eq_nil_iff.mpr (fun x hx => by simpa using habs x hx)
    constructor
    · show ((db "folders").filter (fun r => r.id == id)).length = 0
      rw [hnil]
      rfl
    · show ((db "folders").filter (fun r => r.id == id)).length = 0
      rw [hnil]
      rfl

open Noteful in
/-- C10 witness: with the absent id 99 on the sample database, the
mutators leave the users table untouched, report affected-row count 0, and
delete accounts for every folders row. -/
theorem C10_witness :
    (FolderService.deleteArticle sampleDb 99).2 "users" = sampleDb "users" ∧
    (FolderService.updateArticle sampleDb 99 [("name", "X")]).2 "users" =
      sampleDb "users" ∧
    (FolderService.insertFolder sampleDb { id := 2, fields := [] }).2 "users" =
      sampleDb "users" ∧
    FolderService.getAllFolders sampleDb = FolderService.getAllFolders sampleDb ∧
    FolderService.getById sampleDb 99 = FolderService.getById sampleDb 99 ∧
    (FolderService.deleteArticle sampleDb 99).1 =
      ((sampleDb "folders").filter (fun r => r.id == 99)).length ∧
    (FolderService.updateArticle sampleDb 99 [("name", "X")]).1 =
      ((sampleDb "folders").filter (fun r => r.id == 99)).length ∧
    (FolderService.deleteArticle sampleDb 99).1 +
      ((FolderService.deleteArticle sampleDb 99).2 "folders").length =
      (sampleDb "folders").length ∧
    (FolderService.deleteArticle sampleDb 99).1 = 0 ∧
    (FolderService.updateArticle sampleDb 99 [("name", "X")]).1 = 0 :=
  have h := C10_folder_service_touches_only_folders sampleDb sampleDb 99
    [("name", "X")] { id := 2, fields := [] } "users" (by decide) rfl
  have habs := h.2.2.2.2.2.2.2.2 (by decide)
  ⟨h.1, h.2.1, h.2.2.1, h.2.2.2.1, h.2.2.2.2.1, h.2.2.2.2.2.1,
   h.2.2.2.2.2.2.1, h.2.2.2.2.2.2.2.1, habs.1, habs.2⟩
